import Mathlib

/-!
Shallow embedding of the LSP client core of mcp-language-server
(internal/lsp client file and main.go), together with theorems settling
the specification claims about it.

Machine integers: Go `int32` values (the document `Version` field and the
`nextID` request-id counter, both declared as int32/atomic.Int32 in the
source) are modelled as `Int` with two's-complement wraparound applied at
each increment (`wrap32`).

Effects: file reads and notification sends are fallible in Go; the model
passes their outcomes in as explicit oracle arguments (`readResult :
Option String`, `sendOk : Bool`).  The list of successfully sent messages
is returned alongside the result and the new state.
-/

/-- Two's-complement wraparound of a 32-bit signed integer, as performed by
Go on `int32` overflow. -/
def wrap32 (n : Int) : Int := (n + 2^31) % 2^32 - 2^31

/-- A single diagnostic record; the LSP diagnostic schema is treated as
opaque, only identity matters to the claims. -/
structure Diagnostic where
  message : String
deriving DecidableEq, Repr

/-- A JSON-ish configuration value, enough to express `map[string]any`
initialization options and the built-in default profile. -/
inductive ConfigValue where
  | bool (b : Bool)
  | obj (fields : List (String × ConfigValue))

/-- Go: `type OpenFileInfo struct { Version int32; URI protocol.DocumentUri }`. -/
structure OpenFileInfo where
  Version : Int
  URI : String
deriving DecidableEq, Repr

/-- The mutable maps of `lsp.Client` relevant to the claims: the open-file
map, the diagnostics cache, and the two handler registries (tracked by
registered method name; handler values are opaque). -/
structure ClientState where
  openFiles : List (String × OpenFileInfo)
  diagnostics : List (String × List Diagnostic)
  notifHandlers : List String
  serverReqHandlers : List String
deriving DecidableEq, Repr

/-- Error kinds surfaced by the client operations: a file-read failure
(`os.ReadFile` error), a document-state violation (the
"cannot notify change for unopened file" error), and a transport failure
of `Notify`/`Call`. -/
inductive LspError where
  | readError
  | stateError
  | notifyError
deriving DecidableEq, Repr

/-- Payload of an outgoing LSP notification, as built by the source. -/
inductive NotifPayload where
  | docOpen (uri languageId : String) (version : Int) (text : String)
  | docChange (uri : String) (version : Int) (text : String)
  | docClose (uri : String)
  | emptyObj
deriving DecidableEq, Repr

/-- A message successfully written to the server: a request (only
`initialize` appears in the modelled slice; it carries the root URI and the
initialization options) or a notification. -/
inductive SentMsg where
  | request (method rootUri : String) (initOptions : List (String × ConfigValue))
  | notif (method : String) (payload : NotifPayload)

/-- Result of one client operation: the Go return value, the state of the
client afterwards, and the messages successfully sent, in order. -/
structure StepResult (α : Type) where
  res : Except LspError α
  state : ClientState
  sent : List SentMsg

/-- Go map read `m[k]` (returning `none` for a missing key), on the
association lists that model the client's maps. -/
def lookupKey (m : List (String × α)) (k : String) : Option α :=
  match m with
  | [] => none
  | (k1, v) :: t => if k1 = k then some v else lookupKey t k

/-- Go map assignment `m[k] = v`: replace the value when the key is
present, append the binding otherwise. -/
def insertKey (m : List (String × α)) (k : String) (v : α) : List (String × α) :=
  match m with
  | [] => [(k, v)]
  | (k1, v1) :: t => if k1 = k then (k1, v) :: t else (k1, v1) :: insertKey t k v

/-- Go `delete(m, k)`. -/
def eraseKey (m : List (String × α)) (k : String) : List (String × α) :=
  match m with
  | [] => []
  | (k1, v1) :: t => if k1 = k then eraseKey t k else (k1, v1) :: eraseKey t k

/-- The keys of a modelled map. -/
def keysOf (m : List (String × α)) : List String := m.map Prod.fst

/-- Go `strings.TrimPrefix s pre` (drop `pre` when it is a prefix of `s`,
else return `s` unchanged). -/
def trimPre (s pre : String) : String :=
  if pre.toList.isPrefixOf s.toList then String.mk (s.toList.drop pre.toList.length) else s

/-- Go `strings.Contains s sub`, via lists of characters. -/
def infixOfList (sub l : List Char) : Bool :=
  match l with
  | [] => sub.isEmpty
  | _ :: t => sub.isPrefixOf l || infixOfList sub t

/-- Go `strings.Contains s sub`. -/
def containsSub (s sub : String) : Bool := infixOfList sub.toList s.toList

/-- Go `strings.ToLower`. -/
def toLowerStr (s : String) : String := String.mk (s.toList.map Char.toLower)

/-- Modelled from the spec: `DetectLanguageID` lives outside the shown
source slice; no claim depends on its value, so it is modelled as a fixed
extension-based mapping (Go files to "go", everything else to ""). -/
def DetectLanguageID (uri : String) : String :=
  if (".go".toList).isSuffixOf uri.toList then "go" else ""

/-- The client maps as initialized by `NewClient` (all empty). -/
def initialClient : ClientState := ⟨[], [], [], []⟩

/-- Go `Client.OpenFile` (client file lines 299-338): no-op when the URI is
already open; otherwise read the file (failure aborts before any send),
send `didOpen` with version 1, and only then record the file as open with
Version 1. -/
def OpenFile (s : ClientState) (path : String) (readResult : Option String) (sendOk : Bool) :
    StepResult Unit :=
  let uri := "file://" ++ path
  match lookupKey s.openFiles uri with
  | some _ => ⟨.ok (), s, []⟩
  | none =>
    match readResult with
    | none => ⟨.error .readError, s, []⟩
    | some content =>
      if sendOk then
        ⟨.ok (), { s with openFiles := insertKey s.openFiles uri ⟨1, uri⟩ },
          [.notif "textDocument/didOpen" (.docOpen uri (DetectLanguageID uri) 1 content)]⟩
      else ⟨.error .notifyError, s, []⟩

/-- Go `Client.NotifyChange` (client file lines 340-377): read the file
first (a read failure aborts before the open check), then fail on an
unopened URI, then increment the stored int32 Version, and finally send
`didChange` carrying the new version; a send failure is returned but the
version increment is not rolled back. -/
def NotifyChange (s : ClientState) (path : String) (readResult : Option String) (sendOk : Bool) :
    StepResult Unit :=
  let uri := "file://" ++ path
  match readResult with
  | none => ⟨.error .readError, s, []⟩
  | some content =>
    match lookupKey s.openFiles uri with
    | none => ⟨.error .stateError, s, []⟩
    | some info =>
      let newVersion := wrap32 (info.Version + 1)
      let s1 := { s with openFiles := insertKey s.openFiles uri { info with Version := newVersion } }
      if sendOk then
        ⟨.ok (), s1, [.notif "textDocument/didChange" (.docChange uri newVersion content)]⟩
      else ⟨.error .notifyError, s1, []⟩

/-- Go `Client.CloseFile` (client file lines 379-404): no-op when the URI
is not open; otherwise send `didClose` and, only if the send succeeded,
remove the entry from the open-file map. -/
def CloseFile (s : ClientState) (path : String) (sendOk : Bool) : StepResult Unit :=
  let uri := "file://" ++ path
  match lookupKey s.openFiles uri with
  | none => ⟨.ok (), s, []⟩
  | some _ =>
    if sendOk then
      ⟨.ok (), { s with openFiles := eraseKey s.openFiles uri },
        [.notif "textDocument/didClose" (.docClose uri)]⟩
    else ⟨.error .notifyError, s, []⟩

/-- Go `Client.IsFileOpen`. -/
def IsFileOpen (s : ClientState) (path : String) : Bool :=
  (lookupKey s.openFiles ("file://" ++ path)).isSome

/-- The loop body of `CloseAllFiles`: close each snapshotted path in turn,
ignoring individual errors (they are only logged). -/
def closeFilesLoop (s : ClientState) (paths : List String) (sendOk : String → Bool) :
    ClientState × List SentMsg :=
  match paths with
  | [] => (s, [])
  | p :: t =>
    let r := CloseFile s p (sendOk p)
    let rest := closeFilesLoop r.state t sendOk
    (rest.1, r.sent ++ rest.2)

/-- Go `Client.CloseAllFiles` (client file lines 415-436): snapshot the
open-file keys, convert each URI back to a path with
`strings.TrimPrefix(uri, "file://")`, then close each path best-effort. -/
def CloseAllFiles (s : ClientState) (sendOk : String → Bool) : ClientState × List SentMsg :=
  closeFilesLoop s ((keysOf s.openFiles).map (fun uri => trimPre uri "file://")) sendOk

/-- Go `Client.GetFileDiagnostics` (client file lines 438-443): a plain
read of the diagnostics map; a missing key yields the empty (nil) slice.
The Go function takes only a read lock and performs no write, which the
model reflects by being a pure function of the state. -/
def GetFileDiagnostics (s : ClientState) (uri : String) : List Diagnostic :=
  (lookupKey s.diagnostics uri).getD []

/-- Modelled from the spec: the `textDocument/publishDiagnostics` handler
(`HandleDiagnostics`, outside the shown source slice) replaces the cache
entry for the message's URI wholesale with the received diagnostic list. -/
def HandleDiagnostics (s : ClientState) (uri : String) (diags : List Diagnostic) : ClientState :=
  { s with diagnostics := insertKey s.diagnostics uri diags }

/-- Apply a sequence of received `publishDiagnostics` events, in arrival
order on the single read loop. -/
def applyPublishes (s : ClientState) (events : List (String × List Diagnostic)) : ClientState :=
  match events with
  | [] => s
  | (uri, ds) :: t => applyPublishes (HandleDiagnostics s uri ds) t

theorem lookupKey_insertKey_self (m : List (String × α)) (k : String) (v : α) :
    lookupKey (insertKey m k v) k = some v := by
  induction m with
  | nil => simp [insertKey, lookupKey]
  | cons h t ih =>
    obtain ⟨k1, v1⟩ := h
    by_cases hk : k1 = k
    · simp [insertKey, lookupKey, hk]
    · simp [insertKey, lookupKey, hk, ih]

theorem lookupKey_insertKey_ne (m : List (String × α)) (k k' : String) (v : α) (h : k ≠ k') :
    lookupKey (insertKey m k v) k' = lookupKey m k' := by
  induction m with
  | nil => simp [insertKey, lookupKey, h]
  | cons hd t ih =>
    obtain ⟨k1, v1⟩ := hd
    by_cases hk : k1 = k
    · subst hk
      simp [insertKey, lookupKey, h, ih]
    · simp [insertKey, lookupKey, hk, ih]

theorem lookupKey_applyPublishes_notMem (events : List (String × List Diagnostic))
    (s : ClientState) (uri : String) (h : uri ∉ events.map Prod.fst) :
    lookupKey (applyPublishes s events).diagnostics uri = lookupKey s.diagnostics uri := by
  induction events generalizing s with
  | nil => rfl
  | cons e t ih =>
    obtain ⟨u, ds⟩ := e
    simp only [List.map_cons, List.mem_cons] at h
    push_neg at h
    rw [applyPublishes, ih _ h.2]
    exact lookupKey_insertKey_ne _ _ _ _ (fun heq => h.1 heq.symm)

/-- Claim C9: for every URI for which no `publishDiagnostics` notification
has ever been received (starting from the freshly constructed client),
`GetFileDiagnostics` returns the empty sequence; its Go body only reads the
map under a read lock (the model is a pure function of the state), so it
never fails and never mutates the diagnostics cache. -/
theorem getFileDiagnostics_empty_when_never_published
    (events : List (String × List Diagnostic)) (uri : String)
    (h : uri ∉ events.map Prod.fst) :
    GetFileDiagnostics (applyPublishes initialClient events) uri = [] := by
  rw [GetFileDiagnostics, lookupKey_applyPublishes_notMem _ _ _ h]
  rfl

/-- Witness for C9 at a concrete trace: two publishes for other URIs, a
query for an unpublished URI yields `[]`. -/
theorem getFileDiagnostics_empty_when_never_published_witness :
    GetFileDiagnostics
      (applyPublishes initialClient
        [("file:///a.go", [⟨"boom"⟩]), ("file:///b.go", [])]) "file:///c.go" = [] :=
  getFileDiagnostics_empty_when_never_published
    [("file:///a.go", [⟨"boom"⟩]), ("file:///b.go", [])] "file:///c.go" (by decide)

/-- A sample state with a single open Go file at version 1. -/
def sampleOpenState : ClientState :=
  ⟨[("file:///a.go", ⟨1, "file:///a.go"⟩)], [], [], []⟩

/-- Claim C5: `OpenFile` on an already-open file is a no-op: it returns
success, sends no `didOpen` notification, and leaves the state (hence the
stored Version) unchanged, irrespective of the read and send oracles. -/
theorem openFile_idempotent (s : ClientState) (path : String)
    (readResult : Option String) (sendOk : Bool) (info : OpenFileInfo)
    (h : lookupKey s.openFiles ("file://" ++ path) = some info) :
    OpenFile s path readResult sendOk = ⟨.ok (), s, []⟩ := by
  simp [OpenFile, h]

/-- Witness for C5: a second open of the already-open `/a.go` is a no-op. -/
theorem openFile_idempotent_witness :
    OpenFile sampleOpenState "/a.go" (some "package main") true = ⟨.ok (), sampleOpenState, []⟩ :=
  openFile_idempotent sampleOpenState "/a.go" (some "package main") true
    ⟨1, "file:///a.go"⟩ rfl

theorem wrap32_eq_self (n : Int) (hlo : -2^31 ≤ n) (hhi : n < 2^31) : wrap32 n = n := by
  unfold wrap32
  omega

theorem wrap32_wrap32_add_one (n : Int) : wrap32 (wrap32 n + 1) = wrap32 (n + 1) := by
  unfold wrap32
  omega

/-- Claim C4 counterexample: `/a.go` is not in the (empty) open set, yet
when the file is also unreadable `NotifyChange` fails with the read error,
not the state error, because the Go code calls `os.ReadFile` before the
open check.  The claim as stated ("for every file path whose URI is not in
the open set ... fails with a state error") is therefore false. -/
theorem notifyChange_unopened_claim_false :
    lookupKey initialClient.openFiles ("file://" ++ "/a.go") = none ∧
    NotifyChange initialClient "/a.go" none true = ⟨.error .readError, initialClient, []⟩ ∧
    LspError.readError ≠ LspError.stateError :=
  ⟨rfl, rfl, by decide⟩

/-- Claim C4 (amended): `NotifyChange` on a path whose URI is not in the
open set fails — with the state error when the file content was readable,
with the read error when the read failed first — sends no notification,
and leaves the whole client state (in particular the open-file map)
unchanged. -/
theorem notifyChange_unopened_fails (s : ClientState) (path : String)
    (readResult : Option String) (sendOk : Bool)
    (h : lookupKey s.openFiles ("file://" ++ path) = none) :
    NotifyChange s path readResult sendOk =
      ⟨.error (match readResult with
               | none => LspError.readError
               | some _ => LspError.stateError), s, []⟩ := by
  cases readResult <;> simp [NotifyChange, h]

/-- Witness for C4 (amended) at a concrete input: unopened but readable
file gives the state error and no mutation. -/
theorem notifyChange_unopened_fails_witness :
    NotifyChange initialClient "/b.go" (some "package b") false =
      ⟨.error LspError.stateError, initialClient, []⟩ :=
  notifyChange_unopened_fails initialClient "/b.go" (some "package b") false rfl

/-- A client state with the single file `path` open at version `v`. -/
def mkVerState (path : String) (v : Int) : ClientState :=
  ⟨[("file://" ++ path, ⟨v, "file://" ++ path⟩)], [], [], []⟩

/-- A state with `/a.go` open at the largest int32 version; reachable from
`sampleOpenState` by `2^31 - 2` successful changes
(`overflowState_reachable`). -/
def overflowState : ClientState := mkVerState "/a.go" (2^31 - 1)

/-- Iterate `n` successful `NotifyChange` calls on `path`. -/
def iterNotifyChange (path : String) : Nat → ClientState → ClientState
  | 0, s => s
  | n+1, s => iterNotifyChange path n (NotifyChange s path (some "text") true).state

theorem notifyChange_mkVerState_state (path : String) (v : Int) (content : String) (sendOk : Bool) :
    (NotifyChange (mkVerState path v) path (some content) sendOk).state =
      mkVerState path (wrap32 (v + 1)) := by
  cases sendOk <;> simp [NotifyChange, mkVerState, lookupKey, insertKey]

theorem iterNotifyChange_mkVerState (path : String) (n : Nat) (v : Int) :
    iterNotifyChange path n (mkVerState path (wrap32 v)) = mkVerState path (wrap32 (v + n)) := by
  induction n generalizing v with
  | zero => simp [iterNotifyChange]
  | succ n ih =>
    rw [iterNotifyChange, notifyChange_mkVerState_state, wrap32_wrap32_add_one, ih (v + 1)]
    congr 2
    push_cast
    ring

/-- The overflow state is reachable: `2^31 - 2` successful changes after
opening `/a.go` (version 1) drive the stored int32 version to `2^31 - 1`. -/
theorem overflowState_reachable :
    iterNotifyChange "/a.go" (2^31 - 2) sampleOpenState = overflowState := by
  have h1 : sampleOpenState = mkVerState "/a.go" (wrap32 1) := rfl
  rw [h1, iterNotifyChange_mkVerState]
  have : ((1 : Int) + ((2:Nat)^31 - 2 : Nat)) = 2^31 - 1 := by norm_num
  rw [this, overflowState, wrap32_eq_self] <;> norm_num

/-- Claim C3 counterexample: a successful `NotifyChange` on a file open at
int32 version `2^31 - 1` stores version `-2^31` (Go int32 wraparound), not
the old version plus 1, so "increments the stored Version by exactly 1" is
false as stated. -/
theorem notifyChange_increment_claim_false :
    (NotifyChange overflowState "/a.go" (some "x") true).res = .ok () ∧
    lookupKey (NotifyChange overflowState "/a.go" (some "x") true).state.openFiles
      ("file://" ++ "/a.go") = some ⟨-2147483648, "file:///a.go"⟩ ∧
    (-2147483648 : Int) ≠ 2147483647 + 1 :=
  ⟨rfl, by decide, by decide⟩

/-- Claim C3 (amended): each successful `NotifyChange` on an open file
updates the stored Version to its int32-wraparound successor
`wrap32 (Version + 1)` — equal to `Version + 1` in every case except
`Version = 2^31 - 1`, where it wraps to `-2^31` — and the `version` field
carried by the single `didChange` notification it sends equals that new
stored Version. -/
theorem notifyChange_version_succ (s : ClientState) (path content : String)
    (info : OpenFileInfo)
    (h : lookupKey s.openFiles ("file://" ++ path) = some info)
    (hlo : -2^31 ≤ info.Version) (hhi : info.Version < 2^31) :
    (NotifyChange s path (some content) true).res = .ok () ∧
    lookupKey (NotifyChange s path (some content) true).state.openFiles ("file://" ++ path) =
      some ⟨wrap32 (info.Version + 1), info.URI⟩ ∧
    (NotifyChange s path (some content) true).sent =
      [.notif "textDocument/didChange"
        (.docChange ("file://" ++ path) (wrap32 (info.Version + 1)) content)] ∧
    (info.Version ≠ 2^31 - 1 → wrap32 (info.Version + 1) = info.Version + 1) := by
  refine ⟨?_, ?_, ?_, ?_⟩
  · simp [NotifyChange, h]
  · simp [NotifyChange, h, lookupKey_insertKey_self]
  · simp [NotifyChange, h]
  · intro hne
    exact wrap32_eq_self _ (by omega) (by omega)

/-- Witness for C3 (amended): a successful change on `/a.go` open at
version 1 stores version 2 and sends `didChange` with version 2. -/
theorem notifyChange_version_succ_witness :
    (NotifyChange sampleOpenState "/a.go" (some "pkg") true).res = .ok () ∧
    lookupKey (NotifyChange sampleOpenState "/a.go" (some "pkg") true).state.openFiles
      ("file://" ++ "/a.go") = some ⟨wrap32 (1 + 1), "file:///a.go"⟩ ∧
    (NotifyChange sampleOpenState "/a.go" (some "pkg") true).sent =
      [.notif "textDocument/didChange"
        (.docChange ("file://" ++ "/a.go") (wrap32 (1 + 1)) "pkg")] ∧
    ((1 : Int) ≠ 2^31 - 1 → wrap32 (1 + 1) = 1 + 1) :=
  notifyChange_version_succ sampleOpenState "/a.go" "pkg" ⟨1, "file:///a.go"⟩ rfl
    (by norm_num) (by norm_num)

/-- Claim C10 counterexample: the claim's "incremented by exactly 1" part
fails at the int32 boundary even in the failed-send case: with the file
open at version `2^31 - 1` and the send failing, the stored version becomes
`-2^31`, not the old version plus 1. -/
theorem notifyChange_failed_send_claim_false :
    (NotifyChange overflowState "/a.go" (some "x") false).res = .error .notifyError ∧
    lookupKey (NotifyChange overflowState "/a.go" (some "x") false).state.openFiles
      ("file://" ++ "/a.go") = some ⟨-2147483648, "file:///a.go"⟩ ∧
    (-2147483648 : Int) ≠ 2147483647 + 1 :=
  ⟨rfl, by decide, by decide⟩

/-- Claim C10 (amended): `NotifyChange` is not atomic on transport errors:
when the `didChange` send fails on an open file, it returns the transport
error, nothing is delivered to the server (`sent = []`), and the stored
Version has already been updated to `wrap32 (Version + 1)` — equal to
`Version + 1` except at `Version = 2^31 - 1` — with the update not rolled
back, so the locally stored version advances past the last version
successfully delivered. -/
theorem notifyChange_failed_send_not_rolled_back (s : ClientState) (path content : String)
    (info : OpenFileInfo)
    (h : lookupKey s.openFiles ("file://" ++ path) = some info)
    (hlo : -2^31 ≤ info.Version) (hhi : info.Version < 2^31) :
    (NotifyChange s path (some content) false).res = .error .notifyError ∧
    (NotifyChange s path (some content) false).sent = [] ∧
    lookupKey (NotifyChange s path (some content) false).state.openFiles ("file://" ++ path) =
      some ⟨wrap32 (info.Version + 1), info.URI⟩ ∧
    (info.Version ≠ 2^31 - 1 → wrap32 (info.Version + 1) = info.Version + 1) := by
  refine ⟨?_, ?_, ?_, ?_⟩
  · simp [NotifyChange, h]
  · simp [NotifyChange, h]
  · simp [NotifyChange, h, lookupKey_insertKey_self]
  · intro hne
    exact wrap32_eq_self _ (by omega) (by omega)

/-- The built-in default initialization-options profile (the gopls
codelenses feature set), Go `getInitializationOptions` lines 123-133. -/
def defaultInitializationOptions : List (String × ConfigValue) :=
  [("codelenses", .obj
    [("generate", .bool true), ("regenerate_cgo", .bool true), ("test", .bool true),
     ("tidy", .bool true), ("upgrade_dependency", .bool true), ("vendor", .bool true),
     ("vulncheck", .bool false)])]

/-- Go `getInitializationOptions` (client file lines 116-134): use the
custom configuration only when it is non-nil and non-empty, otherwise the
built-in default; `none` models a nil Go map. -/
def getInitializationOptions (customConfig : Option (List (String × ConfigValue))) :
    List (String × ConfigValue) :=
  match customConfig with
  | some m => if 0 < m.length then m else defaultInitializationOptions
  | none => defaultInitializationOptions

/-- The `initialize` response payload; the LSP result schema is opaque to
the claims, only identity matters. -/
structure InitializeResult where
  payload : String
deriving DecidableEq, Repr

/-- Go map assignment into a handler registry, tracked by method name. -/
def addMethod (l : List String) (m : String) : List String :=
  if l.contains m then l else l ++ [m]

/-- The five handler registrations performed by `InitializeLSPClient`
(client file lines 214-219). -/
def registerClientHandlers (s : ClientState) : ClientState :=
  { s with
    serverReqHandlers := addMethod (addMethod (addMethod s.serverReqHandlers
      "workspace/applyEdit") "workspace/configuration") "client/registerCapability",
    notifHandlers := addMethod (addMethod s.notifHandlers
      "window/showMessage") "textDocument/publishDiagnostics" }

/-- Go `Client.InitializeLSPClient` (client file lines 136-238).  The
transport primitives are outside the shown source slice; modelled from the
spec: `Call` sends the request and blocks for the response (its outcome is
the `callResult` oracle), `Notify` is a fire-and-forget send (outcomes
`notifyOk` for the explicit `Notify(ctx, "initialized", struct{}{})` at
line 209 and `initializedOk` for the generated `Initialized` wrapper at
line 222, which per the handshake contract sends the `initialized`
notification), and the server-specific post-initialization step for the
typescript-language-server family is an opaque extra trace `tsSent` with
outcome `tsOk`.  The sequence is exactly the source's: initialize request,
explicit initialized notification, handler registrations, `Initialized`
(a second initialized notification), then the executable-name switch. -/
def InitializeLSPClient (s : ClientState) (cmdPath workspaceDir : String)
    (customConfig : Option (List (String × ConfigValue)))
    (callResult : Except LspError InitializeResult)
    (notifyOk initializedOk : Bool) (tsOk : Bool) (tsSent : List SentMsg) :
    StepResult InitializeResult :=
  let sent0 : List SentMsg :=
    [.request "initialize" ("file://" ++ workspaceDir) (getInitializationOptions customConfig)]
  match callResult with
  | .error e => ⟨.error e, s, sent0⟩
  | .ok result =>
    if notifyOk then
      let sent1 := sent0 ++ [.notif "initialized" .emptyObj]
      let s1 := registerClientHandlers s
      if initializedOk then
        let sent2 := sent1 ++ [.notif "initialized" .emptyObj]
        if containsSub (toLowerStr cmdPath) "typescript-language-server" then
          if tsOk then ⟨.ok result, s1, sent2 ++ tsSent⟩
          else ⟨.error .notifyError, s1, sent2 ++ tsSent⟩
        else ⟨.ok result, s1, sent2⟩
      else ⟨.error .notifyError, s1, sent1⟩
    else ⟨.error .notifyError, s, sent0⟩

/-- True exactly for a sent `initialized` notification. -/
def isInitializedNotif : SentMsg → Bool
  | .notif "initialized" _ => true
  | _ => false

/-- True exactly for a sent `initialize` request. -/
def isInitializeRequest : SentMsg → Bool
  | .request "initialize" _ _ => true
  | _ => false

/-- Claim C1: on a successful handshake (stub server answers `initialize`
with payload "caps", every send succeeds, gopls command path) the client
does return the server's payload and sends exactly one `initialize`
request — but it sends the `initialized` notification TWICE: once
explicitly via the `c.Notify(ctx, "initialized", ...)` call at line 209,
and once via the generated `Initialized` wrapper at line 222.  The
claimed "exactly one initialized notification" is false; this contradicts
the LSP handshake contract (the spec's stated intent), so the code is the
slip. -/
theorem initializeLSPClient_sends_initialized_twice :
    (InitializeLSPClient initialClient "/usr/bin/gopls" "/ws" none
      (.ok ⟨"caps"⟩) true true true []).res = .ok ⟨"caps"⟩ ∧
    (InitializeLSPClient initialClient "/usr/bin/gopls" "/ws" none
      (.ok ⟨"caps"⟩) true true true []).sent =
      [.request "initialize" "file:///ws" defaultInitializationOptions,
       .notif "initialized" .emptyObj, .notif "initialized" .emptyObj] ∧
    ((InitializeLSPClient initialClient "/usr/bin/gopls" "/ws" none
      (.ok ⟨"caps"⟩) true true true []).sent.countP isInitializeRequest) = 1 ∧
    ((InitializeLSPClient initialClient "/usr/bin/gopls" "/ws" none
      (.ok ⟨"caps"⟩) true true true []).sent.countP isInitializedNotif) = 2 ∧
    (2 : Nat) ≠ 1 :=
  ⟨rfl, rfl, rfl, rfl, by decide⟩

/-- Claim C8 counterexample: the caller supplies a custom configuration —
the empty object `[]`, a non-nil empty Go map — yet the `initialize`
request carries the built-in default profile instead of the supplied
configuration, because the source also requires `len(customConfig) > 0`. -/
theorem initializationOptions_claim_false :
    (InitializeLSPClient initialClient "/usr/bin/gopls" "/ws" (some [])
      (.ok ⟨"caps"⟩) true true true []).sent.head? =
      some (.request "initialize" "file:///ws" defaultInitializationOptions) ∧
    defaultInitializationOptions ≠ [] :=
  ⟨rfl, by simp [defaultInitializationOptions]⟩

/-- Claim C8 (amended): every `InitializeLSPClient` run starts by sending
the `initialize` request whose initialization-options payload is
`getInitializationOptions customConfig`: the caller-supplied configuration
when it is non-empty, and the built-in default profile (the gopls
codelenses feature set) when the supplied configuration is nil (`none`) or
empty. -/
theorem initializationOptions_selection (s : ClientState) (cmdPath workspaceDir : String)
    (customConfig : Option (List (String × ConfigValue)))
    (callResult : Except LspError InitializeResult)
    (notifyOk initializedOk tsOk : Bool) (tsSent : List SentMsg)
    (m : List (String × ConfigValue)) (hm : m ≠ []) :
    (InitializeLSPClient s cmdPath workspaceDir customConfig callResult
      notifyOk initializedOk tsOk tsSent).sent.head? =
      some (.request "initialize" ("file://" ++ workspaceDir)
        (getInitializationOptions customConfig)) ∧
    getInitializationOptions (some m) = m ∧
    getInitializationOptions none = defaultInitializationOptions ∧
    getInitializationOptions (some []) = defaultInitializationOptions := by
  refine ⟨?_, ?_, rfl, rfl⟩
  · cases callResult <;>
      cases notifyOk <;>
        cases initializedOk <;>
          cases tsOk <;>
            cases hts : containsSub (toLowerStr cmdPath) "typescript-language-server" <;>
              simp [InitializeLSPClient, hts]
  · have : 0 < m.length := List.length_pos.mpr hm
    simp [getInitializationOptions, this]

/-- Witness for C8 (amended) at concrete inputs. -/
theorem initializationOptions_selection_witness :
    (InitializeLSPClient initialClient "/usr/bin/gopls" "/ws"
      (some [("usePlaceholders", .bool true)]) (.ok ⟨"caps"⟩) true true true []).sent.head? =
      some (.request "initialize" ("file://" ++ "/ws")
        (getInitializationOptions (some [("usePlaceholders", .bool true)]))) ∧
    getInitializationOptions (some [("usePlaceholders", .bool true)]) =
      [("usePlaceholders", .bool true)] ∧
    getInitializationOptions none = defaultInitializationOptions ∧
    getInitializationOptions (some []) = defaultInitializationOptions :=
  initializationOptions_selection initialClient "/usr/bin/gopls" "/ws"
    (some [("usePlaceholders", .bool true)]) (.ok ⟨"caps"⟩) true true true []
    [("usePlaceholders", .bool true)] (by simp)

/-- Modelled from the spec: the Correlation Table's id allocation is
outside the shown source slice; per the spec, `Call` "allocates the next
id" from "a single atomically-incremented value", and the source declares
that counter as `nextID atomic.Int32` (client file lines 25-26), whose
`Add(1)` wraps around on int32 overflow.  `idAt n` is the id carried by the
n-th request issued (the counter starts at 0, so the first request carries
id 1). -/
def idAt : Nat → Int
  | 0 => 0
  | n+1 => wrap32 (idAt n + 1)

theorem idAt_eq_wrap32 (n : Nat) : idAt n = wrap32 n := by
  induction n with
  | zero => decide
  | succ n ih =>
    have hc : ((n + 1 : Nat) : Int) = (n : Int) + 1 := by push_cast; ring
    rw [idAt, ih, wrap32_wrap32_add_one, hc]

/-- Claim C6 counterexample: issued request ids are not strictly
increasing for the whole process lifetime: the id of the 2^31-th request is
`-2^31`, strictly below the id `2^31 - 1` of the request before it (int32
wraparound of the `nextID atomic.Int32` counter); moreover the id of
request 2^32 + 1 equals the id of request 1, so an id is reused while a
pending call with that id could still be outstanding. -/
theorem requestIds_not_strictly_increasing :
    idAt (2^31 - 1) = 2^31 - 1 ∧
    idAt (2^31) = -(2^31) ∧
    idAt (2^31) < idAt (2^31 - 1) ∧
    idAt (2^32 + 1) = idAt 1 := by
  simp only [idAt_eq_wrap32]
  norm_num [wrap32]

/-- Claim C6 (amended): ids issued by the client are strictly increasing
as long as fewer than 2^31 requests have been issued; the int32 counter
wraps, and after 2^32 further requests the very same id recurs
(`idAt (n + 2^32) = idAt n`), so uniqueness of an outstanding id is only
guaranteed within a window of 2^32 requests. -/
theorem requestIds_increasing_below_wrap (n m : Nat) (h1 : n < m) (h2 : m < 2^31) :
    idAt n < idAt m ∧ idAt (n + 2^32) = idAt n := by
  constructor
  · rw [idAt_eq_wrap32, idAt_eq_wrap32, wrap32_eq_self, wrap32_eq_self] <;>
      push_cast <;> omega
  · rw [idAt_eq_wrap32, idAt_eq_wrap32]
    unfold wrap32
    push_cast
    omega

/-- Witness for C6 (amended): the first id is below the second, and the
id of request 1 + 2^32 equals the id of request 1. -/
theorem requestIds_increasing_below_wrap_witness :
    idAt 1 < idAt 2 ∧ idAt (1 + 2^32) = idAt 1 :=
  requestIds_increasing_below_wrap 1 2 (by norm_num) (by norm_num)

theorem trimPre_roundtrip (p : String) : trimPre ("file://" ++ p) "file://" = p := by
  unfold trimPre
  have h1 : ("file://" ++ p).toList = "file://".toList ++ p.toList := by
    simp [String.toList]
  rw [h1]
  rw [List.isPrefixOf_iff_prefix.mpr (List.prefix_append _ _)]
  simp [List.drop_left]

theorem append_trimPre (uri : String)
    (h : ("file://".toList).isPrefixOf uri.toList = true) :
    "file://" ++ trimPre uri "file://" = uri := by
  obtain ⟨d⟩ := uri
  have hp : "file://".toList <+: d := List.isPrefixOf_iff_prefix.mp h
  have ht : "file://".toList = d.take 7 := by
    have h2 := List.prefix_iff_eq_take.mp hp
    simpa using h2
  unfold trimPre
  rw [h]
  show String.mk ("file://".toList ++ d.drop 7) = String.mk d
  rw [ht]
  rw [List.take_append_drop]

theorem lookupKey_append_cons (A B : List (String × α)) (k : String) (v : α)
    (hA : k ∉ keysOf A) :
    lookupKey (A ++ (k, v) :: B) k = some v := by
  induction A with
  | nil => simp [lookupKey]
  | cons e A' ih =>
    obtain ⟨k1, v1⟩ := e
    simp only [keysOf, List.map_cons, List.mem_cons] at hA
    push_neg at hA
    have hne : k1 ≠ k := fun heq => hA.1 heq.symm
    simp only [List.cons_append, lookupKey, if_neg hne]
    exact ih (by simp [keysOf, hA.2])

theorem eraseKey_notMem (B : List (String × α)) (k : String) (hB : k ∉ keysOf B) :
    eraseKey B k = B := by
  induction B with
  | nil => rfl
  | cons e B' ih =>
    obtain ⟨k1, v1⟩ := e
    simp only [keysOf, List.map_cons, List.mem_cons] at hB
    push_neg at hB
    have hne : k1 ≠ k := fun heq => hB.1 heq.symm
    simp only [eraseKey, if_neg hne]
    rw [ih (by simp [keysOf, hB.2])]

theorem eraseKey_append_cons (A B : List (String × α)) (k : String) (v : α)
    (hA : k ∉ keysOf A) (hB : k ∉ keysOf B) :
    eraseKey (A ++ (k, v) :: B) k = A ++ B := by
  induction A with
  | nil => simp [eraseKey, eraseKey_notMem B k hB]
  | cons e A' ih =>
    obtain ⟨k1, v1⟩ := e
    simp only [keysOf, List.map_cons, List.mem_cons] at hA
    push_neg at hA
    have hne : k1 ≠ k := fun heq => hA.1 heq.symm
    simp only [List.cons_append, eraseKey, if_neg hne]
    exact congrArg (List.cons (k1, v1)) (ih (by simp [keysOf, hA.2]))

theorem closeFile_found_true (s : ClientState) (p : String) (info : OpenFileInfo)
    (h : lookupKey s.openFiles ("file://" ++ p) = some info) :
    CloseFile s p true =
      ⟨.ok (), { s with openFiles := eraseKey s.openFiles ("file://" ++ p) },
        [.notif "textDocument/didClose" (.docClose ("file://" ++ p))]⟩ := by
  simp [CloseFile, h]

theorem closeFile_found_false (s : ClientState) (p : String) (info : OpenFileInfo)
    (h : lookupKey s.openFiles ("file://" ++ p) = some info) :
    CloseFile s p false = ⟨.error .notifyError, s, []⟩ := by
  simp [CloseFile, h]

/-- True exactly for a sent `didClose` notification. -/
def isDidCloseNotif : SentMsg → Bool
  | .notif "textDocument/didClose" _ => true
  | _ => false

/-- Main induction for `CloseAllFiles`: processing the snapshot of the
tail `L` of the open-file list (the already-processed-but-kept entries
are `A`) closes exactly the entries whose `didClose` send succeeds and
keeps the rest. -/
theorem closeFilesLoop_spec (sendOk : String → Bool) (L : List (String × OpenFileInfo)) :
    ∀ (A : List (String × OpenFileInfo)) (s : ClientState),
      s.openFiles = A ++ L →
      (keysOf (A ++ L)).Nodup →
      (∀ e ∈ L, ("file://".toList).isPrefixOf e.1.toList = true) →
      closeFilesLoop s (L.map (fun e => trimPre e.1 "file://")) sendOk =
        ({ s with openFiles := A ++ L.filter (fun e => !sendOk (trimPre e.1 "file://")) },
         (L.filter (fun e => sendOk (trimPre e.1 "file://"))).map
           (fun e => SentMsg.notif "textDocument/didClose" (NotifPayload.docClose e.1))) := by
  induction L with
  | nil =>
    intro A s hs hnd hpre
    obtain ⟨o, d, nh, sh⟩ := s
    simp only [List.append_nil] at hs
    subst hs
    simp [closeFilesLoop]
  | cons e L' ih =>
    intro A s hs hnd hpre
    obtain ⟨uri, info⟩ := e
    have hpree : ("file://".toList).isPrefixOf uri.toList = true :=
      hpre (uri, info) (List.mem_cons_self _ _)
    have huri : "file://" ++ trimPre uri "file://" = uri := append_trimPre uri hpree
    have hk : keysOf (A ++ (uri, info) :: L') = keysOf A ++ uri :: keysOf L' := by
      simp [keysOf]
    rw [hk] at hnd
    rw [List.nodup_append] at hnd
    obtain ⟨hndA, hndc, hdisj⟩ := hnd
    have hmemA : uri ∉ keysOf A := fun hin => hdisj hin (List.mem_cons_self _ _)
    obtain ⟨hmemL, hndL⟩ := List.nodup_cons.mp hndc
    have hnd' : (keysOf (A ++ L')).Nodup := by
      rw [show keysOf (A ++ L') = keysOf A ++ keysOf L' by simp [keysOf],
        List.nodup_append]
      exact ⟨hndA, hndL, fun a ha hin => hdisj ha (List.mem_cons_of_mem _ hin)⟩
    have hlook : lookupKey s.openFiles ("file://" ++ trimPre uri "file://") = some info := by
      rw [huri, hs]
      exact lookupKey_append_cons A L' uri info hmemA
    simp only [List.map_cons, closeFilesLoop]
    cases hso : sendOk (trimPre uri "file://") with
    | true =>
      rw [closeFile_found_true s _ info hlook]
      have hstep : eraseKey s.openFiles ("file://" ++ trimPre uri "file://") = A ++ L' := by
        rw [huri, hs]
        exact eraseKey_append_cons A L' uri info hmemA hmemL
      rw [ih A { s with openFiles := eraseKey s.openFiles ("file://" ++ trimPre uri "file://") }
        hstep hnd' (fun e he => hpre e (List.mem_cons_of_mem _ he))]
      simp [List.filter_cons, hso, huri]
    | false =>
      rw [closeFile_found_false s _ info hlook]
      have hs' : s.openFiles = (A ++ [(uri, info)]) ++ L' := by
        rw [hs]; simp
      have hndshift : (keysOf ((A ++ [(uri, info)]) ++ L')).Nodup := by
        rw [show keysOf ((A ++ [(uri, info)]) ++ L')
            = keysOf A ++ uri :: keysOf L' by simp [keysOf], List.nodup_append]
        exact ⟨hndA, hndc, hdisj⟩
      rw [ih (A ++ [(uri, info)]) s hs' hndshift
        (fun e he => hpre e (List.mem_cons_of_mem _ he))]
      simp [List.filter_cons, hso]

/-- A state with two open Go files, versions 1 and 3. -/
def twoOpenState : ClientState :=
  ⟨[("file:///a.go", ⟨1, "file:///a.go"⟩), ("file:///b.go", ⟨3, "file:///b.go"⟩)], [], [], []⟩

/-- A transport oracle under which every notification send fails. -/
def alwaysFailSend : String → Bool := fun _ => false

/-- A transport oracle that fails exactly the send for path `/b.go`. -/
def failBSend : String → Bool := fun p => !(p == "/b.go")

/-- Claim C2 counterexample: with N = 1 open file and the single
`didClose` send failing, `CloseAllFiles` sends 0 (not 1) `didClose`
notifications and the open-file set is NOT empty afterwards — the Go code
deletes an entry only after its `didClose` send succeeded, so a failed
close keeps the file in the open set. -/
theorem closeAllFiles_claim_false :
    sampleOpenState.openFiles.length = 1 ∧
    (CloseAllFiles sampleOpenState alwaysFailSend).1.openFiles = sampleOpenState.openFiles ∧
    (CloseAllFiles sampleOpenState alwaysFailSend).1.openFiles ≠ [] ∧
    ((CloseAllFiles sampleOpenState alwaysFailSend).2.countP isDidCloseNotif) = 0 ∧
    (0 : Nat) ≠ 1 := by
  refine ⟨rfl, by decide, by decide, by decide, by decide⟩

/-- Claim C2 (amended): `CloseAllFiles` snapshots the N open files and
attempts a `didClose` for each; the files whose send succeeds are removed
and are exactly the ones for which a `didClose` notification is sent (in
snapshot order), while each file whose send fails remains in the open set.
In particular, when every send succeeds, exactly N `didClose` notifications
are sent and the open-file set is empty afterwards.  The rest of the client
state is untouched. -/
theorem closeAllFiles_best_effort (s : ClientState) (sendOk : String → Bool)
    (hnd : (keysOf s.openFiles).Nodup)
    (hpre : ∀ e ∈ s.openFiles, ("file://".toList).isPrefixOf e.1.toList = true) :
    (CloseAllFiles s sendOk).1 =
      { s with openFiles := s.openFiles.filter (fun e => !sendOk (trimPre e.1 "file://")) } ∧
    (CloseAllFiles s sendOk).2 =
      (s.openFiles.filter (fun e => sendOk (trimPre e.1 "file://"))).map
        (fun e => SentMsg.notif "textDocument/didClose" (NotifPayload.docClose e.1)) ∧
    ((∀ e ∈ s.openFiles, sendOk (trimPre e.1 "file://") = true) →
      (CloseAllFiles s sendOk).1.openFiles = [] ∧
      (CloseAllFiles s sendOk).2.length = s.openFiles.length) := by
  have hpaths : (keysOf s.openFiles).map (fun uri => trimPre uri "file://")
      = s.openFiles.map (fun e => trimPre e.1 "file://") := by
    simp [keysOf, List.map_map]
  have hmain := closeFilesLoop_spec sendOk s.openFiles [] s rfl (by simpa using hnd) hpre
  rw [List.nil_append] at hmain
  have hCAF : CloseAllFiles s sendOk =
      ({ s with openFiles := s.openFiles.filter (fun e => !sendOk (trimPre e.1 "file://")) },
       (s.openFiles.filter (fun e => sendOk (trimPre e.1 "file://"))).map
         (fun e => SentMsg.notif "textDocument/didClose" (NotifPayload.docClose e.1))) := by
    rw [CloseAllFiles, hpaths, hmain]
  refine ⟨by rw [hCAF], by rw [hCAF], fun hall => ⟨?_, ?_⟩⟩
  · rw [hCAF]
    simp only
    rw [List.filter_eq_nil_iff]
    intro e he
    simp [hall e he]
  · rw [hCAF]
    simp only [List.length_map]
    congr 1
    rw [List.filter_eq_self]
    exact hall

/-- Witness for C2 (amended): two open files, the send for `/b.go` fails;
one `didClose` is sent, `/a.go` is removed, `/b.go` stays open. -/
theorem closeAllFiles_best_effort_witness :
    (CloseAllFiles twoOpenState failBSend).1 =
      { twoOpenState with openFiles :=
          twoOpenState.openFiles.filter (fun e => !failBSend (trimPre e.1 "file://")) } ∧
    (CloseAllFiles twoOpenState failBSend).2 =
      (twoOpenState.openFiles.filter (fun e => failBSend (trimPre e.1 "file://"))).map
        (fun e => SentMsg.notif "textDocument/didClose" (NotifPayload.docClose e.1)) ∧
    ((∀ e ∈ twoOpenState.openFiles, failBSend (trimPre e.1 "file://") = true) →
      (CloseAllFiles twoOpenState failBSend).1.openFiles = [] ∧
      (CloseAllFiles twoOpenState failBSend).2.length = twoOpenState.openFiles.length) :=
  closeAllFiles_best_effort twoOpenState failBSend (by decide) (by decide)

/-- Witness for C10 (amended): a failed-send change on `/a.go` open at
version 1 returns the transport error yet stores version 2. -/
theorem notifyChange_failed_send_not_rolled_back_witness :
    (NotifyChange sampleOpenState "/a.go" (some "pkg") false).res = .error .notifyError ∧
    (NotifyChange sampleOpenState "/a.go" (some "pkg") false).sent = [] ∧
    lookupKey (NotifyChange sampleOpenState "/a.go" (some "pkg") false).state.openFiles
      ("file://" ++ "/a.go") = some ⟨wrap32 (1 + 1), "file:///a.go"⟩ ∧
    ((1 : Int) ≠ 2^31 - 1 → wrap32 (1 + 1) = 1 + 1) :=
  notifyChange_failed_send_not_rolled_back sampleOpenState "/a.go" "pkg" ⟨1, "file:///a.go"⟩ rfl
    (by norm_num) (by norm_num)
